import Mathlib

/-!
Verification of the oauth2-broker token lifecycle against its specification.

The definitions below are a shallow embedding of the repository's core:
the token stores (`MemoryTokenStorage`, `FirestoreTokenStorage`, and the
document-id keyed Firestore access used by the Express orchestrator), the
OAuth2 response classification, and the `auth` / `callback` / `tokens`
handlers.  JavaScript truthiness and `x || null` coercions are modelled
explicitly; timestamps are integers (epoch seconds).
-/

namespace OAuth2Broker

/-- JS truthiness of a `string | null | undefined` value: the empty string,
`null` and `undefined` are falsy. -/
def jsTruthyStr : Option String → Bool
  | some s => s ≠ ""
  | none => false

/-- JS `x || null` applied to a `number | null | undefined` value: `0`
collapses to `null`. -/
def jsOrNullInt : Option Int → Option Int
  | some n => if n = 0 then none else some n
  | none => none

/-! ### JS object model

JS objects used as string-keyed maps are modelled as association lists with
set-replace semantics: property write replaces the value of an existing key
in place, otherwise appends the key. -/

/-- Property read on a JS object: first binding for the key, if any. -/
def objGet {α : Type} (l : List (String × α)) (k : String) : Option α :=
  (l.find? (fun e => e.1 == k)).map (fun e => e.2)

/-- Property write on a JS object: replace the existing binding in place,
otherwise append. -/
def objSet {α : Type} (l : List (String × α)) (k : String) (v : α) :
    List (String × α) :=
  match l with
  | [] => [(k, v)]
  | e :: rest => if e.1 == k then (k, v) :: rest else e :: objSet rest k v

/-- `delete obj[k]` on a JS object: remove the binding for the key. -/
def objDelete {α : Type} (l : List (String × α)) (k : String) :
    List (String × α) :=
  l.filter (fun e => !(e.1 == k))

/-! ### Token store data model (token-storage.ts, part_005 / part_004) -/

/-- `ITokens` from the storage interface: the persisted token record.
`expires_at` is an absolute timestamp or `null`; `refresh_token` is
`string | null`. -/
structure ITokens where
  access_token : String
  expires_at : Option Int
  refresh_token : Option String
  deriving Repr, DecidableEq

/-- State of `MemoryTokenStorage`: a JS object from device id to a JS
object from provider name to the token record. -/
abbrev MemStore : Type := List (String × List (String × ITokens))

/-- `MemoryTokenStorage.load`: look up the device object, then the provider
entry; both lookups are guarded by JS truthiness (a record object is always
truthy). -/
def memLoad (s : MemStore) (deviceId provider : String) : Option ITokens :=
  match objGet s deviceId with
  | some deviceTokens =>
    match objGet deviceTokens provider with
    | some providerToken => some providerToken
    | none => none
  | none => none

/-- `MemoryTokenStorage.save`: create the device object if absent, then set
the provider entry on it. -/
def memSave (s : MemStore) (deviceId provider : String) (tokens : ITokens) :
    MemStore :=
  objSet s deviceId (objSet ((objGet s deviceId).getD []) provider tokens)

/-- `MemoryTokenStorage.delete`: if the device object exists and has a
truthy provider entry, delete that property. -/
def memDelete (s : MemStore) (deviceId provider : String) : MemStore :=
  match objGet s deviceId with
  | some deviceTokens =>
    match objGet deviceTokens provider with
    | some _ => objSet s deviceId (objDelete deviceTokens provider)
    | none => s
  | none => s

/-- A document of the Firestore collection used by `FirestoreTokenStorage`:
key fields plus the token record fields. -/
structure FireDoc where
  device_id : String
  provider : String
  access_token : String
  expires_at : Option Int
  refresh_token : Option String
  deriving Repr, DecidableEq

/-- The `where device_id == d && provider == p` query predicate. -/
def fsMatch (d p : String) (doc : FireDoc) : Bool :=
  doc.device_id == d && doc.provider == p

/-- State of `FirestoreTokenStorage`: the documents of the collection, in
storage order (queries return matches in this order, `add` appends). -/
abbrev FsState : Type := List FireDoc

/-- `FirestoreTokenStorage.load`: query `limit(1)` on the key pair, project
the three token fields of the first match. -/
def fsLoad (s : FsState) (d p : String) : Option ITokens :=
  (s.find? (fsMatch d p)).map
    (fun doc => ⟨doc.access_token, doc.expires_at, doc.refresh_token⟩)

/-- Update of the first document matching the key: `lr.docs[0].ref.update(tokens)`
overwrites the token fields and leaves the key fields alone. -/
def fsUpdateFirst (s : FsState) (d p : String) (t : ITokens) : FsState :=
  match s with
  | [] => []
  | doc :: rest =>
    if fsMatch d p doc then
      { doc with
        access_token := t.access_token,
        expires_at := t.expires_at,
        refresh_token := t.refresh_token } :: rest
    else doc :: fsUpdateFirst rest d p t

/-- `FirestoreTokenStorage.save`: query `limit(1)` on the key pair; if the
result is empty, `add` a new document, otherwise update the matched
document's token fields. -/
def fsSave (s : FsState) (d p : String) (t : ITokens) : FsState :=
  if (s.find? (fsMatch d p)).isNone then
    s ++ [⟨d, p, t.access_token, t.expires_at, t.refresh_token⟩]
  else
    fsUpdateFirst s d p t

/-- `FirestoreTokenStorage.delete`: delete every document matching the key
pair. -/
def fsDelete (s : FsState) (d p : String) : FsState :=
  s.filter (fun doc => !(fsMatch d p doc))

/-- An abstract store operation, for reasoning about operation sequences. -/
inductive StoreOp where
  | saveOp (d p : String) (t : ITokens)
  | loadOp (d p : String)
  | deleteOp (d p : String)
  deriving Repr

/-- Effect of one operation on the Firestore-backed store (`load` does not
change the state). -/
def fsApply (s : FsState) : StoreOp → FsState
  | .saveOp d p t => fsSave s d p t
  | .loadOp _ _ => s
  | .deleteOp d p => fsDelete s d p

/-- Firestore store state after a sequence of operations from the empty
collection. -/
def fsRun (ops : List StoreOp) : FsState :=
  ops.foldl fsApply []

/-- Number of documents stored for a given `(device_id, provider)` key. -/
def fsCount (s : FsState) (d p : String) : Nat :=
  (s.filter (fsMatch d p)).length

/-- Effect of one operation on the in-memory store. -/
def memApply (s : MemStore) : StoreOp → MemStore
  | .saveOp d p t => memSave s d p t
  | .loadOp _ _ => s
  | .deleteOp d p => memDelete s d p

/-- Memory store state after a sequence of operations from the empty
store. -/
def memRun (ops : List StoreOp) : MemStore :=
  ops.foldl memApply []

/-- Number of records stored for a given `(device_id, provider)` key in the
in-memory store: entries for the device id, each counted by its entries for
the provider. -/
def memCount (s : MemStore) (d p : String) : Nat :=
  ((s.filter (fun e => e.1 == d)).map
    (fun e => (e.2.filter (fun x => x.1 == p)).length)).sum

/-! ### Query-string encoding (node `querystring.stringify`) -/

/-- Hexadecimal digit character (upper case), as produced by
`encodeURIComponent`. -/
def hexDigitChar (n : Nat) : Char :=
  if n < 10 then Char.ofNat (48 + n) else Char.ofNat (55 + n)

/-- Characters left unescaped by `encodeURIComponent`:
`A-Z a-z 0-9 - _ . ! ~ * ' ( )`. -/
def uriUnescaped (c : Char) : Bool :=
  (65 ≤ c.toNat && c.toNat ≤ 90) || (97 ≤ c.toNat && c.toNat ≤ 122) ||
  (48 ≤ c.toNat && c.toNat ≤ 57) ||
  c == '-' || c == '_' || c == '.' || c == '!' || c == '~' || c == '*' ||
  c.toNat == 39 || c == '(' || c == ')'

/-- The UTF-8 byte values of a character. -/
def utf8Bytes (c : Char) : List Nat :=
  let n := c.toNat
  if n < 0x80 then [n]
  else if n < 0x800 then [0xC0 + n / 0x40, 0x80 + n % 0x40]
  else if n < 0x10000 then
    [0xE0 + n / 0x1000, 0x80 + (n / 0x40) % 0x40, 0x80 + n % 0x40]
  else
    [0xF0 + n / 0x40000, 0x80 + (n / 0x1000) % 0x40,
     0x80 + (n / 0x40) % 0x40, 0x80 + n % 0x40]

/-- Percent-encoding of a single component, as `querystring.stringify`
applies to each key and value. -/
def qsEscape (s : String) : String :=
  ⟨s.data.foldr
    (fun c acc =>
      if uriUnescaped c then c :: acc
      else (utf8Bytes c).foldr
        (fun b a => '%' :: hexDigitChar (b / 16) :: hexDigitChar (b % 16) :: a)
        acc)
    []⟩

/-- `querystring.stringify` over an ordered list of key/value pairs. -/
def stringifyQuery (ps : List (String × String)) : String :=
  String.intercalate "&" (ps.map (fun e => qsEscape e.1 ++ "=" ++ qsEscape e.2))

/-! ### Provider registry (oauth2-providers.ts) -/

/-- `OAuth2ProviderConfig`: endpoint URLs, client credentials, scope, and
provider-specific extra parameters (the `[proprietary: string]: string`
index entries such as `force_reapprove` or `access_type`/`prompt`). -/
structure ProviderConfig where
  authorization_uri : String
  client_id : String
  client_secret : String
  revoke_uri : String
  scope : Option String
  token_uri : String
  extra : List (String × String)
  deriving Repr, DecidableEq

/-- A provider config that differs from `p` only in its `client_secret`. -/
def setClientSecret (p : ProviderConfig) (secret : String) : ProviderConfig :=
  { p with client_secret := secret }

/-! ### OAuth2 client (apps/oauth2.ts) -/

/-- Parsed JSON body of a provider token-endpoint response, possibly either
shape: the success fields (`OAuth2TokenResponse`) plus the `error` field of
`OAuth2ErrorResponse` (absent on a success body). -/
structure TokenBody where
  error : Option String
  access_token : String
  expires_in : Option Int
  refresh_token : Option String
  deriving Repr, DecidableEq

/-- An HTTP response from the provider's token endpoint: status code plus
parsed JSON body (`res.json()` is called regardless of status). -/
structure ProviderResponse where
  status : Nat
  body : TokenBody
  deriving Repr, DecidableEq

/-- `res.ok` of node-fetch: status in the 2xx range. -/
def resOk (status : Nat) : Bool :=
  200 ≤ status && status < 300

/-- Bunyan log level chosen by `parseOauth2TokenResponse`. -/
inductive LogLevel where
  | debug
  | warn
  deriving Repr, DecidableEq

/-- `isOAuth2ErrorResponse`: duck-typed check `!!query.error` — the body is
an error shape iff its `error` field is truthy. -/
def isOAuth2ErrorResponse (b : TokenBody) : Bool :=
  jsTruthyStr b.error

/-- `parseOauth2TokenResponse`: returns the parsed body unchanged; the HTTP
status only selects the log level (`res.ok` ⇒ debug "Acquired tokens",
otherwise warn "Token request failed"). -/
def parseOauth2TokenResponse (r : ProviderResponse) : TokenBody × LogLevel :=
  (r.body, if resOk r.status then .debug else .warn)

/-! ### Orchestrator storage (saveTokens / loadTokens / deleteTokens in
apps/oauth2.ts): a Firestore collection addressed by the document id
`device_id + ":" + provider`. -/

/-- The document written by `saveTokens`. -/
structure StoredDoc where
  device_id : String
  provider : String
  access_token : String
  expires_at : Option Int
  refresh_token : Option String
  deriving Repr, DecidableEq

/-- The orchestrator's token collection: documents keyed by their document
id (`docRef.set` overwrites the document with that id). -/
abbrev DocStore : Type := List (String × StoredDoc)

/-- The document id `${device_id}:${providerName}`. -/
def docId (device_id providerName : String) : String :=
  device_id ++ ":" ++ providerName

/-- Shape of the `tokens` argument of `saveTokens`. -/
structure TokenSet where
  access_token : String
  expires_in : Option Int
  refresh_token : Option String
  deriving Repr, DecidableEq

/-- `saveTokens`: write the document for the key, converting `expires_in`
to an absolute `expires_at` (`tokens.expires_in ? now + expires_in : null`;
`0` is falsy). -/
def saveTokens (s : DocStore) (device_id providerName : String) (now : Int)
    (tokens : TokenSet) : DocStore :=
  let expires_at : Option Int :=
    match tokens.expires_in with
    | some n => if n = 0 then none else some (now + n)
    | none => none
  objSet s (docId device_id providerName)
    ⟨device_id, providerName, tokens.access_token, expires_at,
      tokens.refresh_token⟩

/-- The value returned by `loadTokens`: `expires_in` is recomputed from the
absolute stored `expires_at` (`null` stays `null`). -/
structure LoadedTokens where
  access_token : String
  expires_in : Option Int
  refresh_token : Option String
  deriving Repr, DecidableEq

/-- `loadTokens`: read the document for the key; `expires_in` is
`expires_at ? expires_at - now : null`. -/
def loadTokens (s : DocStore) (device_id providerName : String) (now : Int) :
    Option LoadedTokens :=
  (objGet s (docId device_id providerName)).map fun doc =>
    ⟨doc.access_token, doc.expires_at.map (fun t => t - now),
      doc.refresh_token⟩

/-- `deleteTokens`: delete the document for the key. -/
def deleteTokens (s : DocStore) (device_id providerName : String) : DocStore :=
  objDelete s (docId device_id providerName)

/-! ### GET /:provider/auth (beginAuth) -/

/-- The `OAuth2AuthRequestParams` object built by the auth handler, in
insertion order: exactly `client_id`, `redirect_uri`, `response_type`,
`scope`, `state` (a `null` scope stringifies to the empty value). -/
def beginAuthParams (p : ProviderConfig) (redirectUri state : String) :
    List (String × String) :=
  [("client_id", p.client_id),
   ("redirect_uri", redirectUri),
   ("response_type", "code"),
   ("scope", p.scope.getD ""),
   ("state", state)]

/-- The redirect URL issued by the auth handler:
`authorization_uri?querystring.stringify(requestParams)`. -/
def beginAuthRedirect (p : ProviderConfig) (redirectUri state : String) :
    String :=
  p.authorization_uri ++ "?" ++ stringifyQuery (beginAuthParams p redirectUri state)

/-- `createRedirectUri`: this service's own callback URL for a provider. -/
def createRedirectUri (protocol hostname providerName : String) : String :=
  protocol ++ "://" ++ hostname ++ "/oauth2/" ++ providerName ++ "/callback"

/-! ### GET /:provider/callback (handleCallback) -/

/-- The provider's callback query parameters (each possibly absent). -/
structure CallbackQuery where
  state : Option String
  code : Option String
  error : Option String
  deriving Repr, DecidableEq

/-- Rendering of the `expires_in` value inside the success fragment
(`querystring.stringify` renders `null`/`undefined` as the empty string). -/
def optIntToQS : Option Int → String
  | some n => toString n
  | none => ""

/-- Outcome of the callback handler: the redirect issued to the device, the
resulting store state, and how many calls were made to the provider's token
endpoint. -/
structure CallbackOut where
  redirect : String
  store : DocStore
  exchangeCalls : Nat
  deriving Repr, DecidableEq

/-- The callback handler: compare the presented `state` against the
expected state for the device (strict `!==`); then check the query for a
provider error; then exchange the code (`exch` is the token endpoint's
response when that call is made), classify the result, and either redirect
with the provider's error code or save the tokens and redirect with the
token in the fragment. -/
def handleCallback (returnUri expectedState device_id providerName : String)
    (q : CallbackQuery) (exch : ProviderResponse) (s : DocStore) (now : Int) :
    CallbackOut :=
  if q.state ≠ some expectedState then
    ⟨returnUri ++ "#" ++
      stringifyQuery [("provider", providerName), ("error", "invalid_request")],
      s, 0⟩
  else if jsTruthyStr q.error then
    ⟨returnUri ++ "#" ++
      stringifyQuery [("provider", providerName), ("error", q.error.getD "")],
      s, 0⟩
  else
    let tokenRes := (parseOauth2TokenResponse exch).1
    if isOAuth2ErrorResponse tokenRes then
      ⟨returnUri ++ "#" ++
        stringifyQuery [("provider", providerName),
          ("error", tokenRes.error.getD "")],
        s, 1⟩
    else
      let s' := saveTokens s device_id providerName now
        ⟨tokenRes.access_token, jsOrNullInt tokenRes.expires_in,
          tokenRes.refresh_token⟩
      ⟨returnUri ++ "#" ++
        stringifyQuery [("provider", providerName),
          ("access_token", tokenRes.access_token),
          ("expires_in", optIntToQS tokenRes.expires_in)],
        s', 1⟩

/-! ### GET /:provider/tokens (getToken) -/

/-- The HTTP outcome of the tokens endpoint. -/
inductive TokensHttpResult where
  | notFound
  | json (access_token : String) (expires_in : Option Int)
  | errorJson (error : String)
  deriving Repr, DecidableEq

/-- Outcome of the tokens handler: HTTP result, resulting store state, and
how many refresh calls were made to the provider's token endpoint. -/
structure TokensOut where
  result : TokensHttpResult
  store : DocStore
  refreshCalls : Nat
  deriving Repr, DecidableEq

/-- The tokens handler: load the record; `tokenExpired` iff `expires_in`
is non-null and below 60 seconds; refresh when a truthy refresh token
exists and the record is expired (`refreshRes` is the token endpoint's
response when that call is made); on refresh error delete the record and
answer with the error; on refresh success save and return the new tokens;
expired without refresh token deletes and answers not-found; otherwise
return the stored tokens. -/
def getTokensHandler (s : DocStore) (device_id providerName : String)
    (now : Int) (refreshRes : ProviderResponse) : TokensOut :=
  match loadTokens s device_id providerName now with
  | none => ⟨.notFound, s, 0⟩
  | some tokens =>
    let tokenExpired : Bool :=
      match tokens.expires_in with
      | some n => decide (n < 60)
      | none => false
    if jsTruthyStr tokens.refresh_token && tokenExpired then
      let tokenRes := (parseOauth2TokenResponse refreshRes).1
      if isOAuth2ErrorResponse tokenRes then
        ⟨.errorJson (tokenRes.error.getD ""),
          deleteTokens s device_id providerName, 1⟩
      else
        let newTokens : TokenSet :=
          ⟨tokenRes.access_token, jsOrNullInt tokenRes.expires_in,
            tokenRes.refresh_token⟩
        ⟨.json newTokens.access_token newTokens.expires_in,
          saveTokens s device_id providerName now newTokens, 1⟩
    else if tokenExpired then
      ⟨.notFound, deleteTokens s device_id providerName, 0⟩
    else
      ⟨.json tokens.access_token tokens.expires_in, s, 0⟩

/-! ### Spec-side definitions for claim C7 -/

/-- Authorization-request parameter list as claim C7 states it: the five
standard parameters plus every provider-specific extra parameter from the
provider's configuration. -/
def specAuthParamsWithExtras (p : ProviderConfig) (redirectUri state : String) :
    List (String × String) :=
  [("client_id", p.client_id),
   ("redirect_uri", redirectUri),
   ("response_type", "code"),
   ("scope", p.scope.getD ""),
   ("state", state)] ++ p.extra

/-- Authorization redirect URL as claim C7 states it: the provider's
`authorization_uri` with the query string of `specAuthParamsWithExtras`. -/
def specAuthRedirectWithExtras (p : ProviderConfig) (redirectUri state : String) :
    String :=
  p.authorization_uri ++ "?" ++
    stringifyQuery (specAuthParamsWithExtras p redirectUri state)

/-- Authorization redirect URL per the amended claim: the provider's
`authorization_uri` with a query string encoding exactly `client_id`,
`redirect_uri`, `response_type=code`, `scope` and `state`, and nothing
else — extra provider parameters are not merged in. -/
def specAuthRedirectExact (p : ProviderConfig) (redirectUri state : String) :
    String :=
  p.authorization_uri ++ "?" ++
    stringifyQuery
      [("client_id", p.client_id),
       ("redirect_uri", redirectUri),
       ("response_type", "code"),
       ("scope", p.scope.getD ""),
       ("state", state)]

/-- The dropbox provider configuration from oauth2-providers.ts, with
placeholder client credentials (the real values come from configuration at
startup; the theorems below do not depend on them). -/
def dropboxConfig : ProviderConfig where
  authorization_uri := "https://www.dropbox.com/oauth2/authorize"
  client_id := "cid"
  client_secret := "sec"
  revoke_uri := "https://api.dropboxapi.com/2/auth/token/revoke"
  scope := none
  token_uri := "https://api.dropboxapi.com/oauth2/token"
  extra := [("force_reapprove", "true")]

/-! ### Helper lemmas on the JS object model -/

theorem objGet_objSet_self {α : Type} (l : List (String × α)) (k : String) (v : α) :
    objGet (objSet l k v) k = some v := by
  induction l with
  | nil =>
    simp [objGet, objSet, List.find?]
  | cons e rest ih =>
    unfold objSet
    by_cases h : e.1 == k
    · rw [if_pos h]
      simp [objGet, List.find?]
    · rw [if_neg h]
      unfold objGet at ih ⊢
      rw [List.find?_cons_of_neg _ (by simpa using h)]
      exact ih

theorem objGet_objDelete_self {α : Type} (l : List (String × α)) (k : String) :
    objGet (objDelete l k) k = none := by
  unfold objGet objDelete
  rw [Option.map_eq_none', List.find?_eq_none]
  intro x hx
  rcases List.mem_filter.mp hx with ⟨-, hkey⟩
  simpa using hkey

theorem objDelete_count_zero {α : Type} (l : List (String × α)) (k : String) :
    ((objDelete l k).filter (fun e => e.1 == k)).length = 0 := by
  unfold objDelete
  rw [List.length_eq_zero, List.filter_eq_nil_iff]
  intro x hx
  rcases List.mem_filter.mp hx with ⟨-, hkey⟩
  simpa using hkey

/-! ### Claim theorems: begin-auth and callback -/

/-- C3: for every provider configuration and inputs, the redirect URL built
by the auth handler is unchanged when only the configured `client_secret`
changes — `beginAuth` never feeds the client secret into the redirect
URL. -/
theorem c3_beginAuth_secret_noninterference (p : ProviderConfig)
    (secret redirectUri state : String) :
    beginAuthRedirect (setClientSecret p secret) redirectUri state =
      beginAuthRedirect p redirectUri state := rfl

set_option maxRecDepth 8192 in
/-- C7 counterexample: for the dropbox configuration, the redirect URL the
code builds differs from the claim's URL, which would also carry the
provider-specific extra parameter `force_reapprove=true`: the code never
merges extra provider parameters into the authorization request. -/
theorem c7_counterexample :
    beginAuthRedirect dropboxConfig
        (createRedirectUri "https" "svc.example" "dropbox") "st1" ≠
      specAuthRedirectWithExtras dropboxConfig
        (createRedirectUri "https" "svc.example" "dropbox") "st1" := by
  decide

/-- C7 (amended): the authorization redirect URL consists of the provider's
`authorization_uri` with a query string encoding exactly `client_id`,
`redirect_uri`, `response_type=code`, `scope` and `state`; provider-specific
extra parameters from the configuration are not merged in. -/
theorem c7_beginAuth_exact_params (p : ProviderConfig)
    (redirectUri state : String) :
    beginAuthRedirect p redirectUri state =
      specAuthRedirectExact p redirectUri state := rfl

/-- C2: whenever the presented `state` differs from the expected state for
the device, the callback handler makes no call to the provider's token
endpoint, leaves the store unchanged, and redirects to the app-return URI
with `error=invalid_request`. -/
theorem c2_state_mismatch_aborts (returnUri expectedState device_id providerName : String)
    (q : CallbackQuery) (exch : ProviderResponse) (s : DocStore) (now : Int)
    (h : q.state ≠ some expectedState) :
    handleCallback returnUri expectedState device_id providerName q exch s now =
      ⟨returnUri ++ "#" ++
        stringifyQuery [("provider", providerName), ("error", "invalid_request")],
        s, 0⟩ := by
  unfold handleCallback
  rw [if_pos h]

theorem c2_state_mismatch_aborts_witness :
    ((⟨some "evil", some "abc", none⟩ : CallbackQuery).state ≠ some "expected") ∧
    handleCallback "https://app.example/return" "expected" "dev-1" "dropbox"
        ⟨some "evil", some "abc", none⟩ ⟨200, ⟨none, "tok", some 60, none⟩⟩ [] 0 =
      ⟨"https://app.example/return#" ++
        stringifyQuery [("provider", "dropbox"), ("error", "invalid_request")],
        [], 0⟩ :=
  ⟨by decide,
   c2_state_mismatch_aborts "https://app.example/return" "expected" "dev-1"
     "dropbox" ⟨some "evil", some "abc", none⟩ ⟨200, ⟨none, "tok", some 60, none⟩⟩
     [] 0 (by decide)⟩

/-- C4 counterexample: a token-endpoint response with HTTP status 200 whose
body carries `error: "invalid_request"` is treated as the error shape (the
tokens handler deletes the record and reports the error), although the
claim requires every 2xx response body to be treated as the success
shape. -/
theorem c4_counterexample :
    resOk 200 = true ∧
    isOAuth2ErrorResponse ⟨some "invalid_request", "", none, none⟩ = true ∧
    getTokensHandler
        [("dev-1:acme", ⟨"dev-1", "acme", "tok1", some 0, some "rt1"⟩)]
        "dev-1" "acme" 0 ⟨200, ⟨some "invalid_request", "", none, none⟩⟩ =
      ⟨.errorJson "invalid_request", [], 1⟩ := by
  decide

/-- C4 (amended): `parseOauth2TokenResponse` returns the parsed body
unchanged regardless of the HTTP status, the status selects only the log
level (2xx ⇒ debug, non-2xx ⇒ warn), classification is by the presence of
a truthy `error` field in the body, and the tokens handler's behaviour is
independent of the HTTP status of the refresh response. -/
theorem c4_classified_by_error_field :
    (∀ r : ProviderResponse, (parseOauth2TokenResponse r).1 = r.body) ∧
    (∀ r : ProviderResponse,
        (parseOauth2TokenResponse r).2 =
          (if resOk r.status then LogLevel.debug else LogLevel.warn)) ∧
    (∀ b : TokenBody, isOAuth2ErrorResponse b = jsTruthyStr b.error) ∧
    (∀ (s : DocStore) (d pn : String) (now : Int) (status1 status2 : Nat)
        (b : TokenBody),
        getTokensHandler s d pn now ⟨status1, b⟩ =
          getTokensHandler s d pn now ⟨status2, b⟩) :=
  ⟨fun _ => rfl, fun _ => rfl, fun _ => rfl, fun _ _ _ _ _ _ _ => rfl⟩

/-! ### Claim theorems: tokens endpoint -/

/-- C8: when the stored record is not expired (its `expires_at` is null, or
at least the 60-second freshness window away from `now`), the tokens
handler returns the stored access token with `expires_in` recomputed from
the stored absolute `expires_at`, makes no refresh call, and leaves the
store unchanged. -/
theorem c8_fresh_token_no_refresh (s : DocStore) (device_id providerName : String)
    (now : Int) (r : ProviderResponse) (doc : StoredDoc)
    (hload : objGet s (docId device_id providerName) = some doc)
    (hfresh : ∀ t, doc.expires_at = some t → 60 ≤ t - now) :
    getTokensHandler s device_id providerName now r =
      ⟨.json doc.access_token (doc.expires_at.map (fun t => t - now)), s, 0⟩ := by
  unfold getTokensHandler loadTokens
  rw [hload]
  cases hexp : doc.expires_at with
  | none => simp [hexp]
  | some t =>
    have h1 : ¬(t - now < 60) := by
      have := hfresh t hexp
      omega
    simp [hexp, h1]

theorem c8_fresh_token_no_refresh_witness :
    objGet [("dev-1:acme",
        (⟨"dev-1", "acme", "tok1", some 4000, some "rt1"⟩ : StoredDoc))]
        (docId "dev-1" "acme") =
      some ⟨"dev-1", "acme", "tok1", some 4000, some "rt1"⟩ ∧
    getTokensHandler
        [("dev-1:acme", ⟨"dev-1", "acme", "tok1", some 4000, some "rt1"⟩)]
        "dev-1" "acme" 0 ⟨400, ⟨some "invalid_grant", "", none, none⟩⟩ =
      ⟨.json "tok1" (some 4000),
        [("dev-1:acme", ⟨"dev-1", "acme", "tok1", some 4000, some "rt1"⟩)], 0⟩ :=
  ⟨by decide,
   c8_fresh_token_no_refresh
     [("dev-1:acme", ⟨"dev-1", "acme", "tok1", some 4000, some "rt1"⟩)]
     "dev-1" "acme" 0 ⟨400, ⟨some "invalid_grant", "", none, none⟩⟩
     ⟨"dev-1", "acme", "tok1", some 4000, some "rt1"⟩ (by decide)
     (by intro t ht; simp at ht; omega)⟩

/-- C10: a persisted exchange or refresh result whose `expires_in` is `0`
or absent stores `expires_at = null`, and a stored record with a null
`expires_at` is treated as non-expiring by the tokens handler: the stored
access token is returned, no refresh call is made, and the record is not
deleted, for any refresh token and any provider response. -/
theorem c10_null_expiry_non_expiring :
    (∀ (s : DocStore) (d pn : String) (now : Int) (a : String)
        (rt : Option String) (e : Option Int), (e = some 0 ∨ e = none) →
        objGet (saveTokens s d pn now ⟨a, e, rt⟩) (docId d pn) =
          some ⟨d, pn, a, none, rt⟩) ∧
    (∀ (s : DocStore) (d pn : String) (now : Int) (r : ProviderResponse)
        (doc : StoredDoc), objGet s (docId d pn) = some doc →
        doc.expires_at = none →
        getTokensHandler s d pn now r = ⟨.json doc.access_token none, s, 0⟩) := by
  constructor
  · intro s d pn now a rt e he
    rcases he with he | he <;> subst he <;>
      simpa [saveTokens] using
        objGet_objSet_self s (docId d pn) ⟨d, pn, a, none, rt⟩
  · intro s d pn now r doc hload hexp
    unfold getTokensHandler loadTokens
    rw [hload]
    simp [hexp]

theorem c10_null_expiry_non_expiring_witness :
    objGet (saveTokens [] "dev-1" "acme" 50 ⟨"tok", some 0, some "rt"⟩)
        (docId "dev-1" "acme") =
      some ⟨"dev-1", "acme", "tok", none, some "rt"⟩ ∧
    getTokensHandler
        [("dev-1:acme", ⟨"dev-1", "acme", "tok", none, some "rt"⟩)]
        "dev-1" "acme" 999 ⟨400, ⟨some "invalid_grant", "", none, none⟩⟩ =
      ⟨.json "tok" none,
        [("dev-1:acme", ⟨"dev-1", "acme", "tok", none, some "rt"⟩)], 0⟩ :=
  ⟨c10_null_expiry_non_expiring.1 [] "dev-1" "acme" 50 "tok" (some "rt")
     (some 0) (Or.inl rfl),
   c10_null_expiry_non_expiring.2
     [("dev-1:acme", ⟨"dev-1", "acme", "tok", none, some "rt"⟩)]
     "dev-1" "acme" 999 ⟨400, ⟨some "invalid_grant", "", none, none⟩⟩
     ⟨"dev-1", "acme", "tok", none, some "rt"⟩ (by decide) rfl⟩

/-- C5 counterexample: with a stored record holding `refresh_token "rt1"`
and a successful refresh response that does not reissue a refresh token,
the persisted record's `refresh_token` is null — the code does not fall
back to the old record's refresh token as the claim requires. -/
theorem c5_counterexample :
    (getTokensHandler
        [("dev-1:acme", ⟨"dev-1", "acme", "tok1", some 3600, some "rt1"⟩)]
        "dev-1" "acme" 3601 ⟨200, ⟨none, "tok2", some 3600, none⟩⟩).refreshCalls = 1 ∧
    ((objGet (getTokensHandler
        [("dev-1:acme", ⟨"dev-1", "acme", "tok1", some 3600, some "rt1"⟩)]
        "dev-1" "acme" 3601 ⟨200, ⟨none, "tok2", some 3600, none⟩⟩).store
        "dev-1:acme").map (fun doc => doc.refresh_token)) = some none ∧
    (some (none : Option String)) ≠ some (some "rt1") := by
  decide

/-- C5 (amended): when the stored record is within the freshness window and
holds a truthy refresh token, the tokens handler invokes refresh exactly
once and, on success, persists a new record whose `refresh_token` is
exactly the provider's reissued refresh token (null when the provider did
not reissue one — no fallback to the old record's refresh token), and
returns the new access token and `expires_in`. -/
theorem c5_refresh_once_no_fallback (s : DocStore) (d pn : String)
    (now tExp : Int) (r : ProviderResponse) (doc : StoredDoc)
    (hload : objGet s (docId d pn) = some doc)
    (hrt : jsTruthyStr doc.refresh_token = true)
    (hexp : doc.expires_at = some tExp)
    (hwin : tExp - now < 60)
    (hok : jsTruthyStr r.body.error = false) :
    getTokensHandler s d pn now r =
      ⟨.json r.body.access_token (jsOrNullInt r.body.expires_in),
        saveTokens s d pn now
          ⟨r.body.access_token, jsOrNullInt r.body.expires_in,
            r.body.refresh_token⟩, 1⟩ := by
  unfold getTokensHandler loadTokens parseOauth2TokenResponse isOAuth2ErrorResponse
  rw [hload]
  simp [hexp, hrt, hwin, hok]

theorem c5_refresh_once_no_fallback_witness :
    jsTruthyStr (some "rt1") = true ∧ ((3600 : Int) - 3601 < 60) ∧
    getTokensHandler
        [("dev-1:acme", ⟨"dev-1", "acme", "tok1", some 3600, some "rt1"⟩)]
        "dev-1" "acme" 3601 ⟨200, ⟨none, "tok2", some 3600, none⟩⟩ =
      ⟨.json "tok2" (some 3600),
        saveTokens [("dev-1:acme", ⟨"dev-1", "acme", "tok1", some 3600, some "rt1"⟩)]
          "dev-1" "acme" 3601 ⟨"tok2", some 3600, none⟩, 1⟩ :=
  ⟨by decide, by decide,
   c5_refresh_once_no_fallback
     [("dev-1:acme", ⟨"dev-1", "acme", "tok1", some 3600, some "rt1"⟩)]
     "dev-1" "acme" 3601 3600 ⟨200, ⟨none, "tok2", some 3600, none⟩⟩
     ⟨"dev-1", "acme", "tok1", some 3600, some "rt1"⟩
     (by decide) (by decide) rfl (by decide) (by decide)⟩

/-- C6: when the stored record is expired with a truthy refresh token and
the refresh attempt returns a provider error shape, the tokens handler
deletes the record (zero records remain for the key), reports the upstream
error to the caller, and never returns the stale stored token. -/
theorem c6_refresh_error_deletes (s : DocStore) (d pn : String)
    (now tExp : Int) (r : ProviderResponse) (doc : StoredDoc)
    (hload : objGet s (docId d pn) = some doc)
    (hrt : jsTruthyStr doc.refresh_token = true)
    (hexp : doc.expires_at = some tExp)
    (hwin : tExp - now < 60)
    (herr : jsTruthyStr r.body.error = true) :
    getTokensHandler s d pn now r =
      ⟨.errorJson (r.body.error.getD ""), deleteTokens s d pn, 1⟩ ∧
    objGet (deleteTokens s d pn) (docId d pn) = none ∧
    ((deleteTokens s d pn).filter (fun e => e.1 == docId d pn)).length = 0 := by
  refine ⟨?_, ?_, ?_⟩
  · unfold getTokensHandler loadTokens parseOauth2TokenResponse isOAuth2ErrorResponse
    rw [hload]
    simp [hexp, hrt, hwin, herr]
  · exact objGet_objDelete_self s (docId d pn)
  · exact objDelete_count_zero s (docId d pn)

theorem c6_refresh_error_deletes_witness :
    jsTruthyStr (some "invalid_grant") = true ∧
    getTokensHandler
        [("dev-1:acme", ⟨"dev-1", "acme", "tok1", some 3600, some "rt1"⟩)]
        "dev-1" "acme" 3601 ⟨400, ⟨some "invalid_grant", "", none, none⟩⟩ =
      ⟨.errorJson "invalid_grant",
        deleteTokens [("dev-1:acme", ⟨"dev-1", "acme", "tok1", some 3600, some "rt1"⟩)]
          "dev-1" "acme", 1⟩ ∧
    objGet (deleteTokens
        [("dev-1:acme", ⟨"dev-1", "acme", "tok1", some 3600, some "rt1"⟩)]
        "dev-1" "acme") (docId "dev-1" "acme") = none :=
  ⟨by decide,
   (c6_refresh_error_deletes
     [("dev-1:acme", ⟨"dev-1", "acme", "tok1", some 3600, some "rt1"⟩)]
     "dev-1" "acme" 3601 3600 ⟨400, ⟨some "invalid_grant", "", none, none⟩⟩
     ⟨"dev-1", "acme", "tok1", some 3600, some "rt1"⟩
     (by decide) (by decide) rfl (by decide) (by decide)).1,
   (c6_refresh_error_deletes
     [("dev-1:acme", ⟨"dev-1", "acme", "tok1", some 3600, some "rt1"⟩)]
     "dev-1" "acme" 3601 3600 ⟨400, ⟨some "invalid_grant", "", none, none⟩⟩
     ⟨"dev-1", "acme", "tok1", some 3600, some "rt1"⟩
     (by decide) (by decide) rfl (by decide) (by decide)).2.1⟩

/-! ### Helper lemmas: Firestore-backed store (part_004) -/

theorem fsMatch_update (d' p' : String) (doc : FireDoc) (t : ITokens) :
    fsMatch d' p'
      { doc with
        access_token := t.access_token,
        expires_at := t.expires_at,
        refresh_token := t.refresh_token } = fsMatch d' p' doc := rfl

theorem fsCount_updateFirst (s : FsState) (d p d' p' : String) (t : ITokens) :
    fsCount (fsUpdateFirst s d p t) d' p' = fsCount s d' p' := by
  induction s with
  | nil => rfl
  | cons doc rest ih =>
    unfold fsUpdateFirst
    by_cases h : fsMatch d p doc
    · rw [if_pos h]
      unfold fsCount
      rw [List.filter_cons, List.filter_cons, fsMatch_update d' p' doc t]
      by_cases h2 : fsMatch d' p' doc
      · simp [h2]
      · simp [h2]
    · rw [if_neg h]
      unfold fsCount at ih ⊢
      rw [List.filter_cons, List.filter_cons]
      by_cases h2 : fsMatch d' p' doc
      · rw [if_pos h2, if_pos h2, List.length_cons, List.length_cons, ih]
      · rw [if_neg h2, if_neg h2, ih]

theorem fsCount_of_find?_none (s : FsState) (d p : String)
    (h : s.find? (fsMatch d p) = none) : fsCount s d p = 0 := by
  unfold fsCount
  rw [List.length_eq_zero, List.filter_eq_nil_iff]
  exact List.find?_eq_none.mp h

theorem fsCount_save (s : FsState) (d p d' p' : String) (t : ITokens)
    (hinv : fsCount s d' p' ≤ 1) : fsCount (fsSave s d p t) d' p' ≤ 1 := by
  unfold fsSave
  by_cases h : (s.find? (fsMatch d p)).isNone
  · rw [if_pos h]
    unfold fsCount
    rw [List.filter_append, List.length_append]
    by_cases h2 : fsMatch d' p'
        (⟨d, p, t.access_token, t.expires_at, t.refresh_token⟩ : FireDoc)
    · obtain ⟨hd1, hd2⟩ : d = d' ∧ p = p' := by
        simpa [fsMatch] using h2
      subst hd1
      subst hd2
      have h0 : fsCount s d p = 0 :=
        fsCount_of_find?_none s d p (Option.isNone_iff_eq_none.mp h)
      unfold fsCount at h0
      rw [h0]
      simp [h2]
    · simp only [List.filter_cons, h2]
      simpa using hinv
  · rw [if_neg h]
    rw [fsCount_updateFirst]
    exact hinv

theorem fsCount_delete_le (s : FsState) (d p d' p' : String) :
    fsCount (fsDelete s d p) d' p' ≤ fsCount s d' p' :=
  List.Sublist.length_le
    (List.Sublist.filter _ (List.filter_sublist s))

theorem fsCount_apply (s : FsState) (op : StoreOp)
    (hinv : ∀ d' p', fsCount s d' p' ≤ 1) (d' p' : String) :
    fsCount (fsApply s op) d' p' ≤ 1 := by
  cases op with
  | saveOp d p t => exact fsCount_save s d p d' p' t (hinv d' p')
  | loadOp d p => exact hinv d' p'
  | deleteOp d p =>
    exact le_trans (fsCount_delete_le s d p d' p') (hinv d' p')

theorem fsCount_run_le (ops : List StoreOp) :
    ∀ s : FsState, (∀ d' p', fsCount s d' p' ≤ 1) →
    ∀ d' p', fsCount (ops.foldl fsApply s) d' p' ≤ 1 := by
  induction ops with
  | nil => intro s h; exact h
  | cons op rest ih =>
    intro s h d' p'
    exact ih (fsApply s op) (fun a b => fsCount_apply s op h a b) d' p'

theorem fsLoad_fsUpdateFirst (s : FsState) (d p : String) (t : ITokens)
    (h : (s.find? (fsMatch d p)).isSome) :
    fsLoad (fsUpdateFirst s d p t) d p = some t := by
  induction s with
  | nil => simp [List.find?] at h
  | cons doc rest ih =>
    unfold fsUpdateFirst
    by_cases hm : fsMatch d p doc
    · rw [if_pos hm]
      unfold fsLoad
      have hm2 : fsMatch d p
          { doc with
            access_token := t.access_token,
            expires_at := t.expires_at,
            refresh_token := t.refresh_token } = true := hm
      rw [List.find?_cons_of_pos _ hm2]
      cases t
      simp
    · rw [if_neg hm]
      unfold fsLoad at ih ⊢
      rw [List.find?_cons_of_neg _ hm]
      apply ih
      rwa [List.find?_cons_of_neg _ hm] at h

/-! ### Helper lemmas: in-memory store (part_005) -/

theorem mem_objSet {α : Type} {l : List (String × α)} {k : String} {v : α}
    {e : String × α} (he : e ∈ objSet l k v) : e ∈ l ∨ e = (k, v) := by
  induction l with
  | nil => simpa [objSet] using he
  | cons a rest ih =>
    unfold objSet at he
    by_cases h : a.1 == k
    · rw [if_pos h] at he
      rcases List.mem_cons.mp he with h1 | h1
      · exact Or.inr h1
      · exact Or.inl (List.mem_cons_of_mem _ h1)
    · rw [if_neg h] at he
      rcases List.mem_cons.mp he with h1 | h1
      · exact Or.inl (h1 ▸ List.mem_cons_self a rest)
      · rcases ih h1 with h2 | h2
        · exact Or.inl (List.mem_cons_of_mem _ h2)
        · exact Or.inr h2

theorem keys_objSet_sub {α : Type} {l : List (String × α)} {k a : String} {v : α}
    (ha : a ∈ (objSet l k v).map Prod.fst) : a ∈ l.map Prod.fst ∨ a = k := by
  rcases List.mem_map.mp ha with ⟨e, he, rfl⟩
  rcases mem_objSet he with h | h
  · exact Or.inl (List.mem_map_of_mem _ h)
  · exact Or.inr (by rw [h])

theorem keysNodup_objSet {α : Type} {l : List (String × α)} (k : String) (v : α)
    (h : (l.map Prod.fst).Nodup) : ((objSet l k v).map Prod.fst).Nodup := by
  induction l with
  | nil => simp [objSet]
  | cons a rest ih =>
    rw [List.map_cons, List.nodup_cons] at h
    obtain ⟨hnot, hrest⟩ := h
    unfold objSet
    by_cases hk : a.1 == k
    · rw [if_pos hk]
      rw [List.map_cons, List.nodup_cons]
      refine ⟨?_, hrest⟩
      have hak : a.1 = k := by simpa using hk
      rw [← hak]
      exact hnot
    · rw [if_neg hk]
      rw [List.map_cons, List.nodup_cons]
      refine ⟨?_, ih hrest⟩
      intro hmem
      rcases keys_objSet_sub hmem with h1 | h1
      · exact hnot h1
      · have hak : ¬ a.1 = k := by simpa using hk
        exact hak h1

theorem objGet_mem {α : Type} {l : List (String × α)} {k : String} {v : α}
    (h : objGet l k = some v) : (k, v) ∈ l := by
  unfold objGet at h
  rcases Option.map_eq_some'.mp h with ⟨e, hfind, hv⟩
  have hmem := List.mem_of_find?_eq_some hfind
  have hkey := List.find?_some hfind
  obtain ⟨e1, e2⟩ := e
  simp only at hv hkey
  have hk : e1 = k := by simpa using hkey
  subst hk
  subst hv
  exact hmem

theorem filter_key_length_le_one {α : Type} {l : List (String × α)}
    (h : (l.map Prod.fst).Nodup) (k : String) :
    (l.filter (fun e => e.1 == k)).length ≤ 1 := by
  induction l with
  | nil => simp
  | cons a rest ih =>
    rw [List.map_cons, List.nodup_cons] at h
    obtain ⟨hnot, hrest⟩ := h
    rw [List.filter_cons]
    by_cases hk : a.1 == k
    · rw [if_pos hk]
      have hnil : rest.filter (fun e => e.1 == k) = [] := by
        rw [List.filter_eq_nil_iff]
        intro e he hkey
        apply hnot
        have he1 : e.1 = k := by simpa using hkey
        have ha1 : a.1 = k := by simpa using hk
        rw [ha1, ← he1]
        exact List.mem_map_of_mem _ he
      simp [hnil]
    · rw [if_neg hk]
      exact ih hrest

theorem keysNodup_objDelete {α : Type} {l : List (String × α)} (k : String)
    (h : (l.map Prod.fst).Nodup) : ((objDelete l k).map Prod.fst).Nodup :=
  List.Nodup.sublist (List.Sublist.map _ (List.filter_sublist l)) h

/-- Well-formedness of the in-memory store state: device keys are distinct
and, for each device, provider keys are distinct.  Every reachable state
satisfies it. -/
def memWF (s : MemStore) : Prop :=
  (s.map Prod.fst).Nodup ∧ ∀ e ∈ s, (e.2.map Prod.fst).Nodup

theorem memWF_nil : memWF [] := by
  constructor
  · simp
  · intro e he
    cases he

theorem memWF_save (s : MemStore) (d p : String) (t : ITokens) (h : memWF s) :
    memWF (memSave s d p t) := by
  obtain ⟨houter, hinner⟩ := h
  unfold memSave
  constructor
  · exact keysNodup_objSet _ _ houter
  · intro e he
    rcases mem_objSet he with h1 | h1
    · exact hinner e h1
    · subst h1
      apply keysNodup_objSet
      cases hg : objGet s d with
      | none => simp
      | some inner =>
        simp only [Option.getD_some]
        exact hinner (d, inner) (objGet_mem hg)

theorem memWF_delete (s : MemStore) (d p : String) (h : memWF s) :
    memWF (memDelete s d p) := by
  obtain ⟨houter, hinner⟩ := h
  unfold memDelete
  split
  next deviceTokens hg =>
    split
    next tok hgp =>
      constructor
      · exact keysNodup_objSet _ _ houter
      · intro e he
        rcases mem_objSet he with h1 | h1
        · exact hinner e h1
        · subst h1
          apply keysNodup_objDelete
          exact hinner (d, deviceTokens) (objGet_mem hg)
    next hgp => exact ⟨houter, hinner⟩
  next hg => exact ⟨houter, hinner⟩

theorem memWF_run (ops : List StoreOp) : memWF (memRun ops) := by
  suffices hgen : ∀ s : MemStore, memWF s → memWF (ops.foldl memApply s) from
    hgen [] memWF_nil
  induction ops with
  | nil => intro s h; exact h
  | cons op rest ih =>
    intro s h
    apply ih
    cases op with
    | saveOp d p t => exact memWF_save s d p t h
    | loadOp d p => exact h
    | deleteOp d p => exact memWF_delete s d p h

theorem memCount_le_one (s : MemStore) (h : memWF s) (d p : String) :
    memCount s d p ≤ 1 := by
  obtain ⟨houter, hinner⟩ := h
  unfold memCount
  have hlen := filter_key_length_le_one houter d
  cases hl : s.filter (fun e => e.1 == d) with
  | nil =>
    simp
  | cons e rest =>
    rw [hl] at hlen
    have hrest : rest = [] := by
      rw [List.length_cons] at hlen
      exact List.length_eq_zero.mp (by omega)
    subst hrest
    rw [List.map_cons, List.map_nil, List.sum_cons, List.sum_nil]
    have hef : e ∈ s.filter (fun x => x.1 == d) := by
      rw [hl]
      exact List.mem_cons_self e []
    have hes : e ∈ s := List.mem_of_mem_filter hef
    have hlen2 := filter_key_length_le_one (hinner e hes) p
    omega

/-! ### Claim theorems: the token stores -/

/-- C1: starting from the empty store, after any sequence of save, load and
delete operations at most one token record exists per
`(device_id, provider)` key, in both the Firestore-backed store (whose
`save` updates the queried document in place when one exists, and only
otherwise adds one) and the in-memory store. -/
theorem c1_at_most_one_record (ops : List StoreOp) (d p : String) :
    fsCount (fsRun ops) d p ≤ 1 ∧ memCount (memRun ops) d p ≤ 1 := by
  constructor
  · exact fsCount_run_le ops [] (fun d' p' => by simp [fsCount]) d p
  · exact memCount_le_one (memRun ops) (memWF_run ops) d p

/-- C9: for every prior store state, device id, provider and token record,
`save` immediately followed by `load` of the same key returns exactly the
saved record, in both the in-memory store and the Firestore-backed
store. -/
theorem c9_save_then_load (ms : MemStore) (fs : FsState) (d p : String)
    (t : ITokens) :
    memLoad (memSave ms d p t) d p = some t ∧
    fsLoad (fsSave fs d p t) d p = some t := by
  constructor
  · simp [memLoad, memSave, objGet_objSet_self]
  · unfold fsSave
    cases hf : fs.find? (fsMatch d p) with
    | none =>
      have hc : ((none : Option FireDoc).isNone = true) := rfl
      rw [if_pos hc]
      unfold fsLoad
      rw [List.find?_append, hf]
      cases t
      simp [List.find?, fsMatch]
    | some doc =>
      rw [if_neg (by simp)]
      exact fsLoad_fsUpdateFirst fs d p t (by rw [hf]; rfl)

end OAuth2Broker
